/-
Verification of the SafeRoute Safety Scoring & Community Aggregation Engine.

This file gives a shallow embedding, in Lean 4, of the two core modules of
the repository:

* `src/src/services/safetyScorer.ts` — the deterministic multi-factor risk
  model and the relative (rank-banded) scoring engine;
* the Firebase location-feedback service (grid indexing, area score
  aggregation, eligibility cooldown, transactional feedback submission,
  route community scoring).

Conventions of the embedding:

* JavaScript numbers are modelled as rationals (`ℚ`); all arithmetic in the
  embedded code paths is exact on the inputs considered.
* `Math.round x` is `⌊x + 1/2⌋` (JS rounds half toward +∞), `Math.ceil` is
  `⌈·⌉`, `Math.floor` is `⌊·⌋`.
* `Array.prototype.sort` with the comparator `(a, b) => a.totalRisk - b.totalRisk`
  is, per the ECMAScript specification, the stable sort by ascending
  `totalRisk`; it is embedded as `List.insertionSort` with the total
  preorder `riskLE`, which is stable in exactly the same sense.
* Asynchronous Firestore reads are embedded by passing the read result (or a
  read error) as an explicit argument; Firestore transactions executed by
  `runTransaction` are serializable, so a batch of transactional updates is
  embedded as a fold of the (atomic) transaction body over the cell state in
  an arbitrary serialization order.
-/
import Mathlib

/- The arithmetic on `ℚ` used by the embedding is fully computable, but the
basic operations are marked irreducible upstream; re-enable unfolding so that
concrete runs of the embedded code can be checked by `decide`. -/
attribute [local semireducible] Rat.mul Rat.inv Rat.add Rat.sub Rat.ofScientific

/-- JavaScript `Math.round`: round half toward positive infinity. -/
def jround (x : ℚ) : ℤ := ⌊x + 1/2⌋

/-- JavaScript `String.prototype.includes` on character lists:
`subListAt pat hay` is true iff `pat` occurs contiguously in `hay`. -/
def subListAt : List Char → List Char → Bool
  | pat, [] => pat.isEmpty
  | pat, c :: rest => pat.isPrefixOf (c :: rest) || subListAt pat rest

/-- JavaScript `s.includes(pat)`. -/
def strIncludes (s pat : String) : Bool := subListAt pat.toList s.toList

/-! ## safetyScorer.ts — type definitions -/

inductive WeatherCondition where
  | clear | cloudy | rain | storm | fog
deriving DecidableEq, Repr

inductive CrimeLevel where
  | low | medium | high
deriving DecidableEq, Repr

inductive LightingLevel where
  | well_lit | partially_lit | dark
deriving DecidableEq, Repr

inductive RoadType where
  | highway | main_road | residential | alley
deriving DecidableEq, Repr

/-- The three category labels `'Safest Option' | 'Moderate Option' | 'Least Safe Option'`. -/
inductive SafetyCategory where
  | safestOption | moderateOption | leastSafeOption
deriving DecidableEq, Repr

def WeatherCondition.str : WeatherCondition → String
  | .clear => "clear"
  | .cloudy => "cloudy"
  | .rain => "rain"
  | .storm => "storm"
  | .fog => "fog"

structure RouteInputData where
  routeId : String
  distanceKm : ℚ
  durationMin : ℚ
  turnCount : ℚ
  roadType : Option RoadType
  crimeLevel : Option CrimeLevel
  lightingLevel : Option LightingLevel
deriving DecidableEq, Repr

structure EnvironmentData where
  currentHour : ℤ
  weatherCondition : WeatherCondition
deriving DecidableEq, Repr

structure RiskFactors where
  distanceRisk : ℚ
  durationRisk : ℚ
  turnRisk : ℚ
  timeRisk : ℚ
  weatherRisk : ℚ
  crimeRisk : ℚ
  lightingRisk : ℚ
  roadTypeRisk : ℚ
  totalRawRisk : ℚ
deriving DecidableEq, Repr

structure SafetyResult where
  routeId : String
  safetyScore : ℤ
  rawRiskScore : ℤ
  safetyCategory : SafetyCategory
  explanation : String
  riskFactors : RiskFactors
  highlights : List String
  recommendations : List String
  rank : ℕ
  isRelativeScore : Bool
deriving DecidableEq, Repr

/-! ## safetyScorer.ts — weights and score ranges -/

structure Weights where
  crime : ℚ
  lighting : ℚ
  time : ℚ
  distance : ℚ
  duration : ℚ
  roadType : ℚ
  weather : ℚ
  turn : ℚ
deriving DecidableEq, Repr

def WEIGHTS : Weights :=
  { crime := 0.25, lighting := 0.15, time := 0.15, distance := 0.10
    duration := 0.10, roadType := 0.10, weather := 0.10, turn := 0.05 }

structure ScoreRange where
  min : ℚ
  max : ℚ
deriving DecidableEq, Repr

structure RelativeScoreRanges where
  safest : ScoreRange
  moderate : ScoreRange
  riskiest : ScoreRange
deriving DecidableEq, Repr

def RELATIVE_SCORE_RANGES : RelativeScoreRanges :=
  { safest := ⟨75, 92⟩, moderate := ⟨58, 74⟩, riskiest := ⟨42, 57⟩ }

/-! ## safetyScorer.ts — risk calculation functions -/

def calculateDistanceRisk (distanceKm : ℚ) : ℚ := min (distanceKm / 10) 1

def calculateDurationRisk (durationMin : ℚ) : ℚ := min (durationMin / 30) 1

def calculateTurnRisk (turnCount : ℚ) : ℚ := min (turnCount / 20) 1

def calculateTimeRisk (hour : ℤ) : ℚ :=
  if hour ≥ 22 ∨ hour ≤ 5 then 1.0
  else if hour ≥ 19 ∨ hour ≤ 7 then 0.6
  else 0.2

def calculateWeatherRisk : WeatherCondition → ℚ
  | .clear => 0.1
  | .cloudy => 0.3
  | .rain => 0.6
  | .storm => 0.9
  | .fog => 0.9

def calculateCrimeRisk : CrimeLevel → ℚ
  | .low => 0.2
  | .medium => 0.5
  | .high => 0.9

def calculateLightingRisk : LightingLevel → ℚ
  | .well_lit => 0.2
  | .partially_lit => 0.5
  | .dark => 0.9

def calculateRoadTypeRisk : RoadType → ℚ
  | .highway => 0.3
  | .main_road => 0.4
  | .residential => 0.6
  | .alley => 0.8

/-! ## safetyScorer.ts — helper functions -/

def getSafetyCategory (rank totalRoutes : ℕ) : SafetyCategory :=
  if totalRoutes = 1 then .safestOption
  else if rank = 1 then .safestOption
  else if rank = totalRoutes then .leastSafeOption
  else .moderateOption

def generateExplanation (riskFactors : RiskFactors) (rank totalRoutes : ℕ)
    (_environment : EnvironmentData) : String :=
  let intro : String :=
    if rank = 1 then "This is the SAFEST option among available routes"
    else if rank = totalRoutes then
      "This route has the highest relative risk among alternatives"
    else "This route offers a balanced option between safety and convenience"
  let keyFactors : List String :=
    (if riskFactors.crimeRisk ≥ 0.7 then ["higher crime area"]
     else if riskFactors.crimeRisk ≤ 0.3 then ["lower crime area"] else []) ++
    (if riskFactors.lightingRisk ≥ 0.7 then ["limited lighting"]
     else if riskFactors.lightingRisk ≤ 0.3 then ["well-lit streets"] else []) ++
    (if riskFactors.timeRisk ≥ 0.8 then ["late night travel"]
     else if riskFactors.timeRisk ≤ 0.3 then ["daytime travel"] else []) ++
    (if riskFactors.distanceRisk ≥ 0.7 then ["longer distance"]
     else if riskFactors.distanceRisk ≤ 0.3 then ["shorter distance"] else [])
  let parts : List String :=
    [intro] ++
    (if keyFactors.length > 0 then
      ["Key factors: " ++ String.intercalate ", " keyFactors] else [])
  String.intercalate ". " parts ++ "."

def generateHighlights (riskFactors : RiskFactors) (rank totalRoutes : ℕ)
    (environment : EnvironmentData) : List String :=
  let highlights : List String :=
    (if rank = 1 then ["✓ Safest among all alternatives"]
     else if rank = totalRoutes ∧ totalRoutes > 1 then
       ["⚠ Highest risk among alternatives"]
     else []) ++
    (if riskFactors.crimeRisk ≤ 0.3 then ["Lower crime area"] else []) ++
    (if riskFactors.lightingRisk ≤ 0.3 then ["Well-lit streets"] else []) ++
    (if riskFactors.timeRisk ≤ 0.3 then ["Safe travel time"] else []) ++
    (if riskFactors.roadTypeRisk ≤ 0.4 then ["Main roads preferred"] else []) ++
    (if riskFactors.weatherRisk ≤ 0.2 then ["Clear weather conditions"] else []) ++
    (if riskFactors.turnRisk ≤ 0.3 then ["Straightforward route"] else []) ++
    (if riskFactors.distanceRisk ≤ 0.3 then ["Short distance"] else []) ++
    (if riskFactors.crimeRisk ≥ 0.7 then ["Higher crime area - stay alert"] else []) ++
    (if riskFactors.lightingRisk ≥ 0.7 then ["Limited street lighting"] else []) ++
    (if riskFactors.timeRisk ≥ 0.8 then ["Late night travel"] else []) ++
    (if riskFactors.roadTypeRisk ≥ 0.7 then ["Includes narrow streets/alleys"] else []) ++
    (if riskFactors.weatherRisk ≥ 0.7 then
      [environment.weatherCondition.str ++ " weather advisory"] else [])
  let highlights :=
    if highlights.length < 3 then
      let highlights :=
        if highlights.any (fun h => strIncludes h "traffic") then highlights
        else highlights ++ ["Moderate traffic expected"]
      if highlights.any (fun h => strIncludes h "conditions") then highlights
      else highlights ++ ["Standard route conditions"]
    else highlights
  highlights.take 5

def generateRecommendations (riskFactors : RiskFactors) (rank totalRoutes : ℕ) :
    List String :=
  let recommendations : List String :=
    ["Share your live location with trusted contacts"] ++
    (if rank = 1 then ["This is your safest option - recommended"]
     else if rank = totalRoutes ∧ totalRoutes > 1 then
       ["Consider the safest alternative if possible"]
     else []) ++
    (if riskFactors.timeRisk ≥ 0.8 then
      ["Consider traveling with a companion at night",
       "Keep your phone charged and accessible"] else []) ++
    (if riskFactors.crimeRisk ≥ 0.7 then ["Stay on well-populated streets"] else []) ++
    (if riskFactors.lightingRisk ≥ 0.7 then ["Stay aware of your surroundings"] else [])
  recommendations.take 4

/-! ## safetyScorer.ts — main scoring functions -/

structure RawRiskResult where
  riskFactors : RiskFactors
  totalRisk : ℚ
deriving DecidableEq, Repr

/-- `calculateRawRiskScore`: applies defaults for missing data, computes the
eight risk factors and their weighted sum (stored both as `totalRisk` and in
`riskFactors.totalRawRisk`, as the source mutates the field before return). -/
def calculateRawRiskScore (route : RouteInputData) (environment : EnvironmentData) :
    RawRiskResult :=
  let crimeLevel := route.crimeLevel.getD .medium
  let lightingLevel := route.lightingLevel.getD .partially_lit
  let roadType := route.roadType.getD .residential
  let distanceRisk := calculateDistanceRisk route.distanceKm
  let durationRisk := calculateDurationRisk route.durationMin
  let turnRisk := calculateTurnRisk route.turnCount
  let timeRisk := calculateTimeRisk environment.currentHour
  let weatherRisk := calculateWeatherRisk environment.weatherCondition
  let crimeRisk := calculateCrimeRisk crimeLevel
  let lightingRisk := calculateLightingRisk lightingLevel
  let roadTypeRisk := calculateRoadTypeRisk roadType
  let totalRisk :=
    crimeRisk * WEIGHTS.crime +
    lightingRisk * WEIGHTS.lighting +
    timeRisk * WEIGHTS.time +
    distanceRisk * WEIGHTS.distance +
    durationRisk * WEIGHTS.duration +
    roadTypeRisk * WEIGHTS.roadType +
    weatherRisk * WEIGHTS.weather +
    turnRisk * WEIGHTS.turn
  { riskFactors :=
      { distanceRisk, durationRisk, turnRisk, timeRisk, weatherRisk,
        crimeRisk, lightingRisk, roadTypeRisk, totalRawRisk := totalRisk }
    totalRisk }

/-- `Math.min(...allRawRisks)` over a non-empty spread (the `[]` case is
never reached by the caller). -/
def listMin : List ℚ → ℚ
  | [] => 0
  | a :: t => t.foldl min a

/-- `Math.max(...allRawRisks)` over a non-empty spread. -/
def listMax : List ℚ → ℚ
  | [] => 0
  | a :: t => t.foldl max a

/-- The `scoreRange` selected by rank in `calculateRelativeScore`. -/
def scoreRangeFor (rank totalRoutes : ℕ) : ScoreRange :=
  if rank = 1 then RELATIVE_SCORE_RANGES.safest
  else if rank = totalRoutes then RELATIVE_SCORE_RANGES.riskiest
  else RELATIVE_SCORE_RANGES.moderate

/-- The `positionInRange` computed in `calculateRelativeScore` from
`minRisk := Math.min(...allRawRisks)`, `maxRisk := Math.max(...allRawRisks)`
and `riskSpread := maxRisk - minRisk`. -/
def positionInRangeFor (rawRisk : ℚ) (allRawRisks : List ℚ) : ℚ :=
  if listMax allRawRisks - listMin allRawRisks < 0.01 then 0.7
  else 1 - (rawRisk - listMin allRawRisks) / (listMax allRawRisks - listMin allRawRisks)

def calculateRelativeScore (rank totalRoutes : ℕ) (rawRisk : ℚ)
    (allRawRisks : List ℚ) : ℤ :=
  if totalRoutes = 1 then
    jround (max 55 (min 90 ((1 - rawRisk) * 100 + 15)))
  else
    jround ((scoreRangeFor rank totalRoutes).min +
      ((scoreRangeFor rank totalRoutes).max - (scoreRangeFor rank totalRoutes).min) *
      positionInRangeFor rawRisk allRawRisks)

/-- One entry of the intermediate `routeRisks` array
`{ route, ...calculateRawRiskScore(route, environment) }`. -/
structure RouteRisk where
  route : RouteInputData
  riskFactors : RiskFactors
  totalRisk : ℚ
deriving DecidableEq, Repr

/-- Ascending order on `totalRisk`: the comparator `(a, b) => a.totalRisk - b.totalRisk`. -/
def riskLE (a b : RouteRisk) : Prop := a.totalRisk ≤ b.totalRisk

instance : DecidableRel riskLE :=
  fun a b => inferInstanceAs (Decidable (a.totalRisk ≤ b.totalRisk))

instance : IsTotal RouteRisk riskLE := ⟨fun a b => le_total a.totalRisk b.totalRisk⟩

instance : IsTrans RouteRisk riskLE := ⟨fun _ _ _ hab hbc => le_trans hab hbc⟩

def routeRisksOf (routes : List RouteInputData) (environment : EnvironmentData) :
    List RouteRisk :=
  routes.map (fun route =>
    let r := calculateRawRiskScore route environment
    { route, riskFactors := r.riskFactors, totalRisk := r.totalRisk })

/-- `[...routeRisks].sort((a, b) => a.totalRisk - b.totalRisk)` — the stable
ascending sort mandated by ECMAScript, embedded as insertion sort. -/
def sortedByRiskOf (routes : List RouteInputData) (environment : EnvironmentData) :
    List RouteRisk :=
  List.insertionSort riskLE (routeRisksOf routes environment)

def allRawRisksOf (routes : List RouteInputData) (environment : EnvironmentData) :
    List ℚ :=
  (routeRisksOf routes environment).map (·.totalRisk)

/-- The `sortedByRisk.findIndex(r => r.route.routeId === route.routeId)`
lookup used to assign ranks. -/
def rankIdxOf (sortedByRisk : List RouteRisk) (x : RouteRisk) : ℕ :=
  sortedByRisk.findIdx (fun r => decide (r.route.routeId = x.route.routeId))

/-- The body of the `routeRisks.map` closure in `calculateMultipleRoutesSafety`. -/
def mkSafetyResult (sortedByRisk : List RouteRisk) (numRoutes : ℕ)
    (allRawRisks : List ℚ) (environment : EnvironmentData) (x : RouteRisk) :
    SafetyResult :=
  let rank := rankIdxOf sortedByRisk x + 1
  { routeId := x.route.routeId
    safetyScore := calculateRelativeScore rank numRoutes x.totalRisk allRawRisks
    rawRiskScore := jround (x.totalRisk * 100)
    safetyCategory := getSafetyCategory rank numRoutes
    explanation := generateExplanation x.riskFactors rank numRoutes environment
    riskFactors := x.riskFactors
    highlights := generateHighlights x.riskFactors rank numRoutes environment
    recommendations := generateRecommendations x.riskFactors rank numRoutes
    rank := rank
    isRelativeScore := true }

def calculateMultipleRoutesSafety (routes : List RouteInputData)
    (environment : EnvironmentData) : List SafetyResult :=
  if routes.length = 0 then []
  else
    (routeRisksOf routes environment).map
      (mkSafetyResult (sortedByRiskOf routes environment) routes.length
        (allRawRisksOf routes environment) environment)

/-! ## Firebase location-feedback service — grid id generation -/

/-- `n.toFixed(2)`-style fixed-point rendering of the exact hundredths value
`n / 100`: always two decimal places, including trailing zeros. -/
def toFixedTwo (n : ℤ) : String :=
  let m := n.natAbs
  let fracStr :=
    if m % 100 < 10 then "0" ++ Nat.repr (m % 100) else Nat.repr (m % 100)
  let s := Nat.repr (m / 100) ++ "." ++ fracStr
  if n < 0 then "-" ++ s else s

/-- `getGridId`: `Math.round(coord * 100) / 100` followed by `.toFixed(2)`
formatting of both coordinates, joined by an underscore.  The rounded value
is an exact multiple of `1/100`, so `toFixedTwo` of the hundredths count
renders exactly the digits `toFixed(2)` prints. -/
def getGridId (latitude longitude : ℚ) : String :=
  toFixedTwo (jround (latitude * 100)) ++ "_" ++ toFixedTwo (jround (longitude * 100))

/-! ## Firebase location-feedback service — area safety score -/

/-- The persisted per-cell aggregate (`areas/{gridId}`): safe/unsafe counts
plus the last-updated server timestamp (in epoch milliseconds). -/
structure AreaSafetyData where
  safeCount : ℕ
  unsafeCount : ℕ
  lastUpdated : Option ℚ
deriving DecidableEq, Repr

def calculateAreaSafetyScore (safeCount unsafeCount : ℕ) : ℤ :=
  if safeCount + unsafeCount = 0 then 50
  else jround ((safeCount : ℚ) / ((safeCount : ℚ) + (unsafeCount : ℚ)) * 100)

/-- The document store backing the service, as seen by a read: `none` models
a missing cell (or a read that failed and was coerced to "no data"). -/
def AreaStore : Type := String → Option AreaSafetyData

def getAreaSafetyScore (store : AreaStore) (gridId : String) : ℤ :=
  match store gridId with
  | none => 50
  | some data => calculateAreaSafetyScore data.safeCount data.unsafeCount

/-! ## Firebase location-feedback service — abuse prevention -/

/-- The outcome of the `userGridFeedbacks/{userId}_{gridId}` document read in
`canUserSubmitFeedback`: the read can throw, find no document, or find the
recorded `lastSubmittedAt` timestamp (epoch milliseconds). -/
inductive CooldownRead where
  | readError
  | noRecord
  | record (lastSubmittedAtMs : ℚ)
deriving DecidableEq, Repr

structure EligibilityResult where
  canSubmit : Bool
  hoursRemaining : Option ℤ
deriving DecidableEq, Repr

/-- `canUserSubmitFeedback`, with the Firestore read passed in explicitly and
`nowMs` the value of `new Date().getTime()` at the call. -/
def canUserSubmitFeedback (read : CooldownRead) (nowMs : ℚ) : EligibilityResult :=
  match read with
  | .readError => { canSubmit := false, hoursRemaining := some 24 }
  | .noRecord => { canSubmit := true, hoursRemaining := none }
  | .record lastSubmittedAtMs =>
    let hoursSinceLastSubmit := (nowMs - lastSubmittedAtMs) / (1000 * 60 * 60)
    if hoursSinceLastSubmit ≥ 24 then
      { canSubmit := true, hoursRemaining := none }
    else
      { canSubmit := false, hoursRemaining := some ⌈(24 : ℚ) - hoursSinceLastSubmit⌉ }

/-! ## Firebase location-feedback service — transactional feedback submission -/

/-- The body of the `runTransaction` callback in `submitSafetyFeedback`:
an atomic read-modify-write of one cell.  `now` is the server timestamp the
transaction commits into `lastUpdated`. -/
def feedbackTransaction (cell : Option AreaSafetyData) (isSafe : Bool) (now : ℚ) :
    AreaSafetyData :=
  match cell with
  | none =>
    { safeCount := if isSafe then 1 else 0
      unsafeCount := if isSafe then 0 else 1
      lastUpdated := some now }
  | some currentData =>
    { safeCount := if isSafe then currentData.safeCount + 1 else currentData.safeCount
      unsafeCount := if isSafe then currentData.unsafeCount else currentData.unsafeCount + 1
      lastUpdated := some now }

/-- A batch of transactional submissions against one cell, applied in some
serialization order (Firestore transactions are serializable; `runTransaction`
retries on conflict, so every committed transaction reads the immediately
preceding committed state, never a stale pre-image). -/
def runFeedbackTransactions (initial : Option AreaSafetyData)
    (subs : List (Bool × ℚ)) : Option AreaSafetyData :=
  subs.foldl (fun cell sub => some (feedbackTransaction cell sub.1 sub.2)) initial

/-! ## Firebase location-feedback service — route community score -/

/-- Helper for `uniqueKeepFirst`: `seen` is the set of keys already inserted. -/
def uniqueKeepFirstAux (seen : List String) : List String → List String
  | [] => []
  | a :: t =>
    if a ∈ seen then uniqueKeepFirstAux seen t
    else a :: uniqueKeepFirstAux (a :: seen) t

/-- First-occurrence deduplication: `[...new Set(gridIds)]` (a JS `Set`
iterates in insertion order, keeping the first occurrence of each key). -/
def uniqueKeepFirst (l : List String) : List String := uniqueKeepFirstAux [] l

structure RoutePoint where
  lat : ℚ
  lng : ℚ
deriving DecidableEq, Repr

structure RouteCommunityScore where
  score : ℤ
  coveredGrids : ℕ
  totalGrids : ℕ
deriving DecidableEq, Repr

/-- The `gridIds` intermediate of `calculateRouteCommunityScore`. -/
def routeGridIdsOf (routePoints : List RoutePoint) : List String :=
  routePoints.map (fun point => getGridId point.lat point.lng)

/-- The `uniqueGridIds` intermediate of `calculateRouteCommunityScore`. -/
def uniqueGridIdsOf (routePoints : List RoutePoint) : List String :=
  uniqueKeepFirst (routeGridIdsOf routePoints)

/-- The per-unique-cell scores of `calculateRouteCommunityScore` (the fan-out
of `getMultipleAreaSafetyScores`, which resolves each unique grid id through
`getAreaSafetyScore`). -/
def routeScoresOf (store : AreaStore) (routePoints : List RoutePoint) : List ℤ :=
  (uniqueGridIdsOf routePoints).map (fun gridId => getAreaSafetyScore store gridId)

/-- `calculateRouteCommunityScore`: maps the points to grid ids, keeps unique
cells, resolves each unique cell's score, then averages and counts the cells
whose score differs from the neutral default 50. -/
def calculateRouteCommunityScore (store : AreaStore)
    (routePoints : List RoutePoint) : RouteCommunityScore :=
  if routePoints.length = 0 then { score := 50, coveredGrids := 0, totalGrids := 0 }
  else
    { score :=
        if (uniqueGridIdsOf routePoints).length > 0 then
          jround ((((routeScoresOf store routePoints).foldl (· + ·) 0 : ℤ) : ℚ) /
            ((uniqueGridIdsOf routePoints).length : ℚ))
        else 50
      coveredGrids :=
        ((routeScoresOf store routePoints).filter (fun score => score != 50)).length
      totalGrids := (uniqueGridIdsOf routePoints).length }

/-! ## Example inputs used by concrete witnesses and counterexamples -/

def exRouteA : RouteInputData :=
  { routeId := "A", distanceKm := 1, durationMin := 5, turnCount := 0
    roadType := some .highway, crimeLevel := some .low, lightingLevel := some .well_lit }

def exRouteB : RouteInputData :=
  { routeId := "B", distanceKm := 4, durationMin := 15, turnCount := 7
    roadType := some .residential, crimeLevel := some .medium
    lightingLevel := some .partially_lit }

def exRouteC : RouteInputData :=
  { routeId := "C", distanceKm := 12, durationMin := 40, turnCount := 20
    roadType := some .alley, crimeLevel := some .high, lightingLevel := some .dark }

def exEnv : EnvironmentData := { currentHour := 20, weatherCondition := .clear }

/-- A store holding one cell ("12.35_77.65") with one safe and one unsafe
report — actual community data whose score is exactly the neutral 50. -/
def exStore : AreaStore := fun gridId =>
  if gridId = "12.35_77.65" then
    some { safeCount := 1, unsafeCount := 1, lastUpdated := none }
  else none

/-! ## Rounding helper lemmas -/

theorem jround_intCast (z : ℤ) : jround (z : ℚ) = z := by
  unfold jround
  rw [add_comm, Int.floor_add_int]
  norm_num

theorem jround_bounds {lo hi : ℤ} {q : ℚ} (h1 : (lo : ℚ) ≤ q) (h2 : q ≤ (hi : ℚ)) :
    lo ≤ jround q ∧ jround q ≤ hi := by
  constructor
  · exact Int.le_floor.2 (by linarith)
  · have h : jround q < hi + 1 := Int.floor_lt.2 (by push_cast; linarith)
    omega

/-! ## C4 — area safety score from counts -/

/-- C4 (amended): the area score equals `round(safeCount/(safeCount+unsafeCount)*100)`
when `safeCount+unsafeCount > 0` and equals 50 when both counts are 0; however 50
is not exclusive to the 0/0 case — any combination with `safeCount = unsafeCount`
(in particular positive equal counts) also yields exactly 50. -/
theorem areaSafetyScore_spec (safeCount unsafeCount : ℕ) :
    (safeCount + unsafeCount = 0 → calculateAreaSafetyScore safeCount unsafeCount = 50) ∧
    (0 < safeCount + unsafeCount →
      calculateAreaSafetyScore safeCount unsafeCount =
        jround ((safeCount : ℚ) / ((safeCount : ℚ) + (unsafeCount : ℚ)) * 100)) ∧
    (safeCount = unsafeCount → calculateAreaSafetyScore safeCount unsafeCount = 50) := by
  refine ⟨fun h => by rw [calculateAreaSafetyScore, if_pos h],
          fun h => by rw [calculateAreaSafetyScore, if_neg (by omega)],
          fun h => ?_⟩
  subst h
  by_cases h0 : safeCount = 0
  · subst h0; rfl
  · rw [calculateAreaSafetyScore, if_neg (by omega)]
    have hs : (safeCount : ℚ) ≠ 0 := Nat.cast_ne_zero.2 h0
    have hv : (safeCount : ℚ) / ((safeCount : ℚ) + (safeCount : ℚ)) * 100 = 50 := by
      field_simp
      ring
    rw [hv, show (50 : ℚ) = ((50 : ℤ) : ℚ) by norm_num, jround_intCast]

/-- C4 counterexample: one safe and one unsafe report (total 2 > 0) also
produce the neutral value 50, so 50 is not exclusive to the 0/0 case. -/
theorem areaSafetyScore_50_counterexample :
    calculateAreaSafetyScore 1 1 = 50 ∧ 0 < 1 + 1 := by decide

/-- C4 witness: a concrete application of `areaSafetyScore_spec` with positive
total (2 safe, 1 unsafe gives round(200/3) = 67). -/
theorem areaSafetyScore_spec_witness : calculateAreaSafetyScore 2 1 = 67 := by
  have h := (areaSafetyScore_spec 2 1).2.1 (by decide)
  rw [h]; decide

/-! ## C7 — time-of-day risk -/

/-- C7 (amended): for every hour in 0..23, `calculateTimeRisk` returns 1.0
exactly on hours ≤ 5 or ≥ 22, 0.6 exactly on hours 6, 7 and 19..21, and 0.2
exactly on hours 8..18.  Hour 7 falls into the 0.6 branch, and so does hour 6
(the second branch's condition `hour <= 7` also captures hour 6). -/
theorem timeRisk_spec (hour : ℤ) (h0 : 0 ≤ hour) (h23 : hour ≤ 23) :
    (calculateTimeRisk hour = 1 ↔ (hour ≤ 5 ∨ 22 ≤ hour)) ∧
    (calculateTimeRisk hour = 3/5 ↔ ((6 ≤ hour ∧ hour ≤ 7) ∨ (19 ≤ hour ∧ hour ≤ 21))) ∧
    (calculateTimeRisk hour = 1/5 ↔ (8 ≤ hour ∧ hour ≤ 18)) := by
  interval_cases hour <;> decide

/-- C7 counterexample: the claim asserts hour 6 does not fall into the 0.6
branch, but `calculateTimeRisk 6 = 0.6`, exactly as for hour 7. -/
theorem timeRisk_hour6_counterexample :
    calculateTimeRisk 6 = 3/5 ∧ calculateTimeRisk 7 = 3/5 := by decide

/-- C7 witness: `timeRisk_spec` applied at hour 7. -/
theorem timeRisk_spec_witness : calculateTimeRisk 7 = 3/5 :=
  (timeRisk_spec 7 (by decide) (by decide)).2.1.mpr (Or.inl (by decide))

/-! ## C8 — grid id quantization -/

/-- C8 (amended): `getGridId` quantizes by two-decimal rounding with
fixed-point formatting.  Coordinates that round to the same hundredth share an
id — `getGridId 12.3456 77.6543 = getGridId 12.3451 77.6549` — but
`12.3449` rounds down to `12.34` while `12.3456` rounds up to `12.35`, so the
claim's example pair `(12.3456, 77.6543)` and `(12.3449, 77.6549)` produce
different ids; and `getGridId 12.3456 77.6543 ≠ getGridId 12.36 77.6543`. -/
theorem gridId_quantization :
    getGridId 12.3456 77.6543 = getGridId 12.3451 77.6549 ∧
    getGridId 12.3456 77.6543 ≠ getGridId 12.3449 77.6549 ∧
    getGridId 12.3456 77.6543 ≠ getGridId 12.36 77.6543 := by decide

/-- C8 counterexample: the claim's example equality fails — `12.3456` and
`12.3449` are on opposite sides of the `12.345` rounding boundary, so the two
ids are `"12.35_77.65"` and `"12.34_77.65"`. -/
theorem gridId_example_counterexample :
    getGridId 12.3456 77.6543 ≠ getGridId 12.3449 77.6549 ∧
    getGridId 12.3456 77.6543 = "12.35_77.65" ∧
    getGridId 12.3449 77.6549 = "12.34_77.65" := by decide

/-! ## C5 — feedback eligibility cooldown -/

/-- C5 (confirmed): eligibility returns `canSubmit = true` exactly when there
is no prior record or the recorded submission is at least 24 elapsed hours
old; when denied on a record it returns `hoursRemaining = ⌈24 - hoursSince⌉`;
a user who submitted 23 hours ago is denied with 1 hour remaining, one who
submitted 25 hours ago is allowed; and a store read error fails closed. -/
theorem feedbackEligibility_spec (read : CooldownRead) (nowMs : ℚ) :
    ((canUserSubmitFeedback read nowMs).canSubmit = true ↔
      (read = .noRecord ∨ ∃ t, read = .record t ∧ 24 ≤ (nowMs - t) / (1000 * 60 * 60))) ∧
    (∀ t, read = .record t → (nowMs - t) / (1000 * 60 * 60) < 24 →
      canUserSubmitFeedback read nowMs =
        { canSubmit := false,
          hoursRemaining := some ⌈(24 : ℚ) - (nowMs - t) / (1000 * 60 * 60)⌉ }) ∧
    (canUserSubmitFeedback (.record (nowMs - 23 * (1000 * 60 * 60))) nowMs =
      { canSubmit := false, hoursRemaining := some 1 }) ∧
    (canUserSubmitFeedback (.record (nowMs - 25 * (1000 * 60 * 60))) nowMs =
      { canSubmit := true, hoursRemaining := none }) ∧
    ((canUserSubmitFeedback .readError nowMs).canSubmit = false) := by
  have h23 : (nowMs - (nowMs - 23 * (1000 * 60 * 60))) / ((1000 : ℚ) * 60 * 60) = 23 := by
    ring
  have h25 : (nowMs - (nowMs - 25 * (1000 * 60 * 60))) / ((1000 : ℚ) * 60 * 60) = 25 := by
    ring
  refine ⟨?_, ?_, ?_, ?_, ?_⟩
  · cases read with
    | readError =>
      simp only [canUserSubmitFeedback]
      constructor
      · intro h; exact absurd h (by simp)
      · rintro (h | ⟨t, h, -⟩) <;> exact absurd h (by simp)
    | noRecord => simp [canUserSubmitFeedback]
    | record t =>
      simp only [canUserSubmitFeedback]
      by_cases h : (nowMs - t) / (1000 * 60 * 60) ≥ 24
      · rw [if_pos h]
        exact ⟨fun _ => Or.inr ⟨t, rfl, h⟩, fun _ => rfl⟩
      · rw [if_neg h]
        constructor
        · intro hfalse; exact absurd hfalse (by simp)
        · rintro (habs | ⟨t', heq, ht'⟩)
          · exact absurd habs (by simp)
          · obtain rfl : t = t' := by injection heq
            exact absurd ht' h
  · intro t ht hlt
    subst ht
    simp only [canUserSubmitFeedback]
    rw [if_neg (not_le.2 hlt)]
  · simp only [canUserSubmitFeedback, h23]
    rw [if_neg (by norm_num)]
    norm_num
  · simp only [canUserSubmitFeedback, h25]
    rw [if_pos (by norm_num)]
  · rfl

/-- C5 witness: `feedbackEligibility_spec` applied at a record 23 hours old
(last submission at epoch 0, now at 82800000 ms). -/
theorem feedbackEligibility_spec_witness :
    canUserSubmitFeedback (.record 0) 82800000 =
      { canSubmit := false, hoursRemaining := some 1 } := by
  have h := (feedbackEligibility_spec (.record 0) 82800000).2.1 0 rfl (by norm_num)
  rw [h]
  decide

/-! ## C6 — no lost updates in transactional feedback submission -/

theorem runFeedbackTransactions_some (subs : List (Bool × ℚ)) :
    ∀ c : AreaSafetyData, ∃ c' : AreaSafetyData,
      runFeedbackTransactions (some c) subs = some c' ∧
      c'.safeCount = c.safeCount + (subs.filter (fun s => s.1)).length ∧
      c'.unsafeCount = c.unsafeCount + (subs.filter (fun s => !s.1)).length := by
  induction subs with
  | nil => exact fun c => ⟨c, rfl, by simp, by simp⟩
  | cons s rest ih =>
    intro c
    obtain ⟨c', hrun, hsafe, huns⟩ := ih (feedbackTransaction (some c) s.1 s.2)
    refine ⟨c', hrun, ?_, ?_⟩
    · rw [hsafe]
      cases hs : s.1 <;> simp [feedbackTransaction, hs] <;> omega
    · rw [huns]
      cases hs : s.1 <;> simp [feedbackTransaction, hs] <;> omega

/-- C6 (confirmed): the per-cell update is a transactional read-modify-write
(the increment is computed from the state read inside the same transaction),
so for any serialization order of `N ≥ 1` committed submissions with
`isSafe = true` against an initially absent cell, the final `safeCount` is
exactly `N` and no update is lost.  Each step of the fold is one committed
`runTransaction` body; serializability of Firestore transactions is what
justifies the fold model. -/
theorem submitFeedback_no_lost_updates (N : ℕ) (hN : 1 ≤ N)
    (subs : List (Bool × ℚ)) (hlen : subs.length = N)
    (hsafe : ∀ s ∈ subs, s.1 = true) :
    (runFeedbackTransactions none subs).map
      (fun c => (c.safeCount, c.unsafeCount)) = some (N, 0) := by
  cases subs with
  | nil => simp at hlen; omega
  | cons s rest =>
    have hs : s.1 = true := hsafe s (List.mem_cons_self s rest)
    have hstep : runFeedbackTransactions none (s :: rest) =
        runFeedbackTransactions (some (feedbackTransaction none s.1 s.2)) rest := rfl
    obtain ⟨c', hrun, hsc, huc⟩ :=
      runFeedbackTransactions_some rest (feedbackTransaction none s.1 s.2)
    have hall : rest.filter (fun x => x.1) = rest := by
      apply List.filter_eq_self.2
      intro x hx
      exact hsafe x (List.mem_cons_of_mem s hx)
    have hnone : rest.filter (fun x => !x.1) = [] := by
      apply List.filter_eq_nil_iff.2
      intro x hx
      simp [hsafe x (List.mem_cons_of_mem s hx)]
    have hsc1 : (feedbackTransaction none s.1 s.2).safeCount = 1 := by
      rw [hs]; rfl
    have huc0 : (feedbackTransaction none s.1 s.2).unsafeCount = 0 := by
      rw [hs]; rfl
    have hlen1 : rest.length + 1 = N := by simpa using hlen
    have h1 : c'.safeCount = N := by
      rw [hsc, hall, hsc1]; omega
    have h2 : c'.unsafeCount = 0 := by
      rw [huc, hnone, huc0]; rfl
    rw [hstep, hrun]
    simp only [Option.map_some']
    rw [h1, h2]

/-- C6 witness: two committed `isSafe = true` transactions on a fresh cell
leave `safeCount = 2`, via `submitFeedback_no_lost_updates`. -/
theorem submitFeedback_no_lost_updates_witness :
    (runFeedbackTransactions none [(true, 0), (true, 1)]).map
      (fun c => (c.safeCount, c.unsafeCount)) = some (2, 0) :=
  submitFeedback_no_lost_updates 2 (by decide) [(true, 0), (true, 1)] (by decide)
    (by decide)

/-! ## C3 — risk factor bounds and the weighted aggregate -/

theorem calculateDistanceRisk_bounds {d : ℚ} (hd : 0 ≤ d) :
    0 ≤ calculateDistanceRisk d ∧ calculateDistanceRisk d ≤ 1 :=
  ⟨le_min (by positivity) zero_le_one, min_le_right _ _⟩

theorem calculateDurationRisk_bounds {d : ℚ} (hd : 0 ≤ d) :
    0 ≤ calculateDurationRisk d ∧ calculateDurationRisk d ≤ 1 :=
  ⟨le_min (by positivity) zero_le_one, min_le_right _ _⟩

theorem calculateTurnRisk_bounds {t : ℚ} (ht : 0 ≤ t) :
    0 ≤ calculateTurnRisk t ∧ calculateTurnRisk t ≤ 1 :=
  ⟨le_min (by positivity) zero_le_one, min_le_right _ _⟩

theorem calculateTimeRisk_bounds (hour : ℤ) :
    0 ≤ calculateTimeRisk hour ∧ calculateTimeRisk hour ≤ 1 := by
  unfold calculateTimeRisk
  split_ifs <;> norm_num

theorem calculateWeatherRisk_bounds (w : WeatherCondition) :
    0 ≤ calculateWeatherRisk w ∧ calculateWeatherRisk w ≤ 1 := by
  cases w <;> decide

theorem calculateCrimeRisk_bounds (c : CrimeLevel) :
    0 ≤ calculateCrimeRisk c ∧ calculateCrimeRisk c ≤ 1 := by
  cases c <;> decide

theorem calculateLightingRisk_bounds (l : LightingLevel) :
    0 ≤ calculateLightingRisk l ∧ calculateLightingRisk l ≤ 1 := by
  cases l <;> decide

theorem calculateRoadTypeRisk_bounds (r : RoadType) :
    0 ≤ calculateRoadTypeRisk r ∧ calculateRoadTypeRisk r ≤ 1 := by
  cases r <;> decide

/-- C3 (confirmed): for every route with non-negative distance, duration and
turn count and every environment with an hour in 0..23, all eight risk
sub-factors lie in [0,1]; `totalRawRisk` is exactly the weighted sum with
weights crime .25, lighting .15, time .15, distance .10, duration .10,
roadType .10, weather .10, turn .05; the weights sum to exactly 1; and
therefore `totalRawRisk` lies in [0,1] as well. -/
theorem rawRiskScore_bounds (route : RouteInputData) (environment : EnvironmentData)
    (hd : 0 ≤ route.distanceKm) (hdur : 0 ≤ route.durationMin)
    (ht : 0 ≤ route.turnCount) (hh0 : 0 ≤ environment.currentHour)
    (hh23 : environment.currentHour ≤ 23) :
    let rf := (calculateRawRiskScore route environment).riskFactors
    (0 ≤ rf.distanceRisk ∧ rf.distanceRisk ≤ 1) ∧
    (0 ≤ rf.durationRisk ∧ rf.durationRisk ≤ 1) ∧
    (0 ≤ rf.turnRisk ∧ rf.turnRisk ≤ 1) ∧
    (0 ≤ rf.timeRisk ∧ rf.timeRisk ≤ 1) ∧
    (0 ≤ rf.weatherRisk ∧ rf.weatherRisk ≤ 1) ∧
    (0 ≤ rf.crimeRisk ∧ rf.crimeRisk ≤ 1) ∧
    (0 ≤ rf.lightingRisk ∧ rf.lightingRisk ≤ 1) ∧
    (0 ≤ rf.roadTypeRisk ∧ rf.roadTypeRisk ≤ 1) ∧
    (rf.totalRawRisk =
      rf.crimeRisk * WEIGHTS.crime + rf.lightingRisk * WEIGHTS.lighting +
      rf.timeRisk * WEIGHTS.time + rf.distanceRisk * WEIGHTS.distance +
      rf.durationRisk * WEIGHTS.duration + rf.roadTypeRisk * WEIGHTS.roadType +
      rf.weatherRisk * WEIGHTS.weather + rf.turnRisk * WEIGHTS.turn) ∧
    (WEIGHTS.crime + WEIGHTS.lighting + WEIGHTS.time + WEIGHTS.distance +
      WEIGHTS.duration + WEIGHTS.roadType + WEIGHTS.weather + WEIGHTS.turn = 1) ∧
    (0 ≤ rf.totalRawRisk ∧ rf.totalRawRisk ≤ 1) := by
  intro rf
  obtain ⟨hd0, hd1⟩ := calculateDistanceRisk_bounds hd
  obtain ⟨hu0, hu1⟩ := calculateDurationRisk_bounds hdur
  obtain ⟨htu0, htu1⟩ := calculateTurnRisk_bounds ht
  obtain ⟨hti0, hti1⟩ := calculateTimeRisk_bounds environment.currentHour
  obtain ⟨hw0, hw1⟩ := calculateWeatherRisk_bounds environment.weatherCondition
  obtain ⟨hc0, hc1⟩ := calculateCrimeRisk_bounds (route.crimeLevel.getD .medium)
  obtain ⟨hl0, hl1⟩ := calculateLightingRisk_bounds (route.lightingLevel.getD .partially_lit)
  obtain ⟨hr0, hr1⟩ := calculateRoadTypeRisk_bounds (route.roadType.getD .residential)
  refine ⟨⟨hd0, hd1⟩, ⟨hu0, hu1⟩, ⟨htu0, htu1⟩, ⟨hti0, hti1⟩, ⟨hw0, hw1⟩,
    ⟨hc0, hc1⟩, ⟨hl0, hl1⟩, ⟨hr0, hr1⟩, rfl, by norm_num [WEIGHTS], ?_, ?_⟩
  · show 0 ≤ calculateCrimeRisk (route.crimeLevel.getD .medium) * WEIGHTS.crime +
      calculateLightingRisk (route.lightingLevel.getD .partially_lit) * WEIGHTS.lighting +
      calculateTimeRisk environment.currentHour * WEIGHTS.time +
      calculateDistanceRisk route.distanceKm * WEIGHTS.distance +
      calculateDurationRisk route.durationMin * WEIGHTS.duration +
      calculateRoadTypeRisk (route.roadType.getD .residential) * WEIGHTS.roadType +
      calculateWeatherRisk environment.weatherCondition * WEIGHTS.weather +
      calculateTurnRisk route.turnCount * WEIGHTS.turn
    simp only [WEIGHTS]
    norm_num
    linarith
  · show calculateCrimeRisk (route.crimeLevel.getD .medium) * WEIGHTS.crime +
      calculateLightingRisk (route.lightingLevel.getD .partially_lit) * WEIGHTS.lighting +
      calculateTimeRisk environment.currentHour * WEIGHTS.time +
      calculateDistanceRisk route.distanceKm * WEIGHTS.distance +
      calculateDurationRisk route.durationMin * WEIGHTS.duration +
      calculateRoadTypeRisk (route.roadType.getD .residential) * WEIGHTS.roadType +
      calculateWeatherRisk environment.weatherCondition * WEIGHTS.weather +
      calculateTurnRisk route.turnCount * WEIGHTS.turn ≤ 1
    simp only [WEIGHTS]
    norm_num
    linarith

/-- C3 witness: `rawRiskScore_bounds` applied to a concrete route and
environment. -/
theorem rawRiskScore_bounds_witness :
    0 ≤ (calculateRawRiskScore exRouteB exEnv).riskFactors.distanceRisk ∧
    (calculateRawRiskScore exRouteB exEnv).riskFactors.distanceRisk ≤ 1 :=
  (rawRiskScore_bounds exRouteB exEnv (by decide) (by decide) (by decide)
    (by decide) (by decide)).1

/-! ## C9 — highlight count bounds -/

/-- C9 (code bug): the source comment says "Ensure at least 3 highlights",
but the padding logic can stop at 2: for the middle-ranked route of the batch
`[exRouteA, exRouteB, exRouteC]` at hour 20 in clear weather, the only
threshold highlight is "Clear weather conditions"; the filler step then adds
"Moderate traffic expected" but skips "Standard route conditions" because the
substring check `includes('conditions')` already matches
"Clear weather conditions", leaving only 2 highlights — violating the claimed
lower bound of 3 (the upper bound of 5 always holds via `slice(0, 5)`). -/
theorem highlights_min_count_bug :
    ((calculateMultipleRoutesSafety [exRouteA, exRouteB, exRouteC] exEnv).map
      (fun r => r.highlights.length)) = [5, 2, 5] ∧
    ¬ (∀ r ∈ calculateMultipleRoutesSafety [exRouteA, exRouteB, exRouteC] exEnv,
        3 ≤ r.highlights.length ∧ r.highlights.length ≤ 5) := by decide

/-! ## C10 — route community score -/

theorem mem_uniqueKeepFirstAux (l : List String) :
    ∀ (seen : List String) (a : String),
      a ∈ uniqueKeepFirstAux seen l ↔ (a ∈ l ∧ a ∉ seen) := by
  induction l with
  | nil => intro seen a; simp [uniqueKeepFirstAux]
  | cons b t ih =>
    intro seen a
    by_cases hb : b ∈ seen
    · rw [uniqueKeepFirstAux, if_pos hb, ih]
      constructor
      · rintro ⟨hat, has⟩
        exact ⟨List.mem_cons_of_mem _ hat, has⟩
      · rintro ⟨hab, has⟩
        rcases List.mem_cons.1 hab with rfl | hat
        · exact absurd hb has
        · exact ⟨hat, has⟩
    · rw [uniqueKeepFirstAux, if_neg hb]
      constructor
      · intro h
        rcases List.mem_cons.1 h with rfl | h2
        · exact ⟨List.mem_cons_self _ _, hb⟩
        · obtain ⟨hat, hns⟩ := (ih _ _).1 h2
          exact ⟨List.mem_cons_of_mem _ hat,
            fun hs => hns (List.mem_cons_of_mem _ hs)⟩
      · rintro ⟨hab, has⟩
        rcases List.mem_cons.1 hab with rfl | hat
        · exact List.mem_cons_self _ _
        · by_cases hab2 : a = b
          · subst hab2; exact List.mem_cons_self _ _
          · refine List.mem_cons_of_mem _ ((ih _ _).2 ⟨hat, fun hmem => ?_⟩)
            rcases List.mem_cons.1 hmem with h3 | h3
            · exact hab2 h3
            · exact has h3

theorem nodup_uniqueKeepFirstAux (l : List String) :
    ∀ seen : List String, (uniqueKeepFirstAux seen l).Nodup := by
  induction l with
  | nil => intro seen; simp [uniqueKeepFirstAux]
  | cons b t ih =>
    intro seen
    by_cases hb : b ∈ seen
    · rw [uniqueKeepFirstAux, if_pos hb]; exact ih seen
    · rw [uniqueKeepFirstAux, if_neg hb]
      refine List.nodup_cons.2 ⟨fun hmem => ?_, ih _⟩
      exact ((mem_uniqueKeepFirstAux t _ b).1 hmem).2 (List.mem_cons_self _ _)

theorem mem_uniqueKeepFirst (l : List String) (a : String) :
    a ∈ uniqueKeepFirst l ↔ a ∈ l := by
  simp [uniqueKeepFirst, mem_uniqueKeepFirstAux]

theorem nodup_uniqueKeepFirst (l : List String) : (uniqueKeepFirst l).Nodup :=
  nodup_uniqueKeepFirstAux l []

theorem toFinset_uniqueKeepFirst (l : List String) :
    (uniqueKeepFirst l).toFinset = l.toFinset :=
  List.toFinset.ext (fun a => mem_uniqueKeepFirst l a)

theorem length_uniqueKeepFirst (l : List String) :
    (uniqueKeepFirst l).length = l.toFinset.card := by
  rw [← toFinset_uniqueKeepFirst,
    List.toFinset_card_of_nodup (nodup_uniqueKeepFirst l)]

theorem foldl_add_eq_sum (l : List ℤ) : ∀ a : ℤ, l.foldl (· + ·) a = a + l.sum := by
  induction l with
  | nil => intro a; simp
  | cons b t ih => intro a; simp [ih, add_assoc]

/-- C10 (amended): for a non-empty list of route points, `totalGrids` is the
number of unique grid cells the points map to, `score` is the rounded
arithmetic mean of those unique cells' area scores, and `coveredGrids` is the
number of those unique cells whose area score differs from the neutral
default 50 — a proxy for "has data" that misses cells whose reports balance
to exactly 50. -/
theorem routeCommunityScore_spec (store : AreaStore)
    (routePoints : List RoutePoint) (hne : routePoints ≠ []) :
    let res := calculateRouteCommunityScore store routePoints
    let cells := (routePoints.map (fun point => getGridId point.lat point.lng)).toFinset
    res.totalGrids = cells.card ∧
    res.score =
      jround (((cells.sum fun gridId => getAreaSafetyScore store gridId : ℤ) : ℚ) /
        (cells.card : ℚ)) ∧
    res.coveredGrids =
      (cells.filter fun gridId => getAreaSafetyScore store gridId ≠ 50).card := by
  have hlen0 : routePoints.length ≠ 0 := fun h => hne (List.length_eq_zero.1 h)
  have hulen : (uniqueGridIdsOf routePoints).length > 0 := by
    obtain ⟨p, ps, hps⟩ := List.exists_cons_of_ne_nil hne
    have hmem : getGridId p.lat p.lng ∈ uniqueGridIdsOf routePoints := by
      rw [hps]
      exact (mem_uniqueKeepFirst _ _).2 (by simp [routeGridIdsOf, uniqueGridIdsOf])
    exact List.length_pos.2 (List.ne_nil_of_mem hmem)
  intro res cells
  have hcells : (uniqueGridIdsOf routePoints).toFinset = cells :=
    toFinset_uniqueKeepFirst (routeGridIdsOf routePoints)
  have hcard : (uniqueGridIdsOf routePoints).length = cells.card :=
    length_uniqueKeepFirst (routeGridIdsOf routePoints)
  have hsum : (routeScoresOf store routePoints).foldl (· + ·) 0 =
      cells.sum fun gridId => getAreaSafetyScore store gridId := by
    rw [foldl_add_eq_sum, zero_add]
    show ((uniqueKeepFirst (routeGridIdsOf routePoints)).map
      (fun gridId => getAreaSafetyScore store gridId)).sum = _
    rw [← List.sum_toFinset _ (nodup_uniqueKeepFirst (routeGridIdsOf routePoints)),
      toFinset_uniqueKeepFirst]
    rfl
  have hcover : ((routeScoresOf store routePoints).filter
        (fun score => score != 50)).length =
      (cells.filter fun gridId => getAreaSafetyScore store gridId ≠ 50).card := by
    show (((uniqueGridIdsOf routePoints).map _).filter _).length = _
    rw [List.filter_map, List.length_map]
    have hnd : ((uniqueGridIdsOf routePoints).filter ((fun score => score != 50) ∘
        fun gridId => getAreaSafetyScore store gridId)).Nodup :=
      List.Nodup.filter _ (nodup_uniqueKeepFirst (routeGridIdsOf routePoints))
    rw [← List.toFinset_card_of_nodup hnd, List.toFinset_filter, hcells]
    congr 1
    apply Finset.filter_congr
    intro g _
    simp [Function.comp]
  refine ⟨?_, ?_, ?_⟩
  · show (calculateRouteCommunityScore store routePoints).totalGrids = cells.card
    rw [calculateRouteCommunityScore, if_neg hlen0]
    exact hcard
  · show (calculateRouteCommunityScore store routePoints).score = _
    rw [calculateRouteCommunityScore, if_neg hlen0]
    show (if (uniqueGridIdsOf routePoints).length > 0 then
        jround ((((routeScoresOf store routePoints).foldl (· + ·) 0 : ℤ) : ℚ) /
          ((uniqueGridIdsOf routePoints).length : ℚ))
      else 50) = _
    rw [if_pos hulen, hsum, hcard]
  · show (calculateRouteCommunityScore store routePoints).coveredGrids = _
    rw [calculateRouteCommunityScore, if_neg hlen0]
    exact hcover

/-- C10 counterexample: a cell holding actual community data (one safe and
one unsafe report) is not counted as covered, because its score is exactly
the neutral 50 — refuting the claim that every cell with at least one
recorded report counts as covered. -/
theorem routeCommunityScore_covered_counterexample :
    exStore (getGridId 12.3456 77.6543) =
      some { safeCount := 1, unsafeCount := 1, lastUpdated := none } ∧
    (calculateRouteCommunityScore exStore
      [{ lat := 12.3456, lng := 77.6543 }]).coveredGrids = 0 ∧
    (calculateRouteCommunityScore exStore
      [{ lat := 12.3456, lng := 77.6543 }]).totalGrids = 1 := by decide

/-- C10 witness: `routeCommunityScore_spec` applied to a one-point route. -/
theorem routeCommunityScore_spec_witness :
    (calculateRouteCommunityScore exStore
      [{ lat := 12.3456, lng := 77.6543 }]).totalGrids = 1 := by
  have h := (routeCommunityScore_spec exStore
    [{ lat := 12.3456, lng := 77.6543 }] (by decide)).1
  rw [h]
  decide

/-! ## C1 — relative score bands -/

theorem foldl_min_le (t : List ℚ) : ∀ a : ℚ,
    t.foldl min a ≤ a ∧ ∀ x ∈ t, t.foldl min a ≤ x := by
  induction t with
  | nil => intro a; exact ⟨le_refl a, by simp⟩
  | cons b t ih =>
    intro a
    obtain ⟨h1, h2⟩ := ih (min a b)
    refine ⟨le_trans h1 (min_le_left _ _), ?_⟩
    intro x hx
    rcases List.mem_cons.1 hx with rfl | hx2
    · exact le_trans h1 (min_le_right _ _)
    · exact h2 x hx2

theorem le_foldl_max (t : List ℚ) : ∀ a : ℚ,
    a ≤ t.foldl max a ∧ ∀ x ∈ t, x ≤ t.foldl max a := by
  induction t with
  | nil => intro a; exact ⟨le_refl a, by simp⟩
  | cons b t ih =>
    intro a
    obtain ⟨h1, h2⟩ := ih (max a b)
    refine ⟨le_trans (le_max_left _ _) h1, ?_⟩
    intro x hx
    rcases List.mem_cons.1 hx with rfl | hx2
    · exact le_trans (le_max_right _ _) h1
    · exact h2 x hx2

theorem listMin_le_of_mem {l : List ℚ} {x : ℚ} (hx : x ∈ l) : listMin l ≤ x := by
  cases l with
  | nil => cases hx
  | cons a t =>
    rcases List.mem_cons.1 hx with rfl | hx2
    · exact (foldl_min_le t x).1
    · exact (foldl_min_le t a).2 x hx2

theorem le_listMax_of_mem {l : List ℚ} {x : ℚ} (hx : x ∈ l) : x ≤ listMax l := by
  cases l with
  | nil => cases hx
  | cons a t =>
    rcases List.mem_cons.1 hx with rfl | hx2
    · exact (le_foldl_max t x).1
    · exact (le_foldl_max t a).2 x hx2

theorem positionInRangeFor_bounds {rawRisk : ℚ} {risks : List ℚ} (hmem : rawRisk ∈ risks) :
    0 ≤ positionInRangeFor rawRisk risks ∧ positionInRangeFor rawRisk risks ≤ 1 := by
  have hmin : listMin risks ≤ rawRisk := listMin_le_of_mem hmem
  have hmax : rawRisk ≤ listMax risks := le_listMax_of_mem hmem
  rw [positionInRangeFor]
  split_ifs with hspread
  · constructor <;> norm_num
  · push_neg at hspread
    have hsp : (0 : ℚ) < listMax risks - listMin risks :=
      lt_of_lt_of_le (by norm_num) hspread
    have h1 : (rawRisk - listMin risks) / (listMax risks - listMin risks) ≤ 1 :=
      (div_le_one hsp).2 (by linarith)
    have h0 : 0 ≤ (rawRisk - listMin risks) / (listMax risks - listMin risks) :=
      div_nonneg (by linarith) (le_of_lt hsp)
    constructor <;> linarith

theorem calculateRelativeScore_one (rank : ℕ) (rawRisk : ℚ) (risks : List ℚ) :
    calculateRelativeScore rank 1 rawRisk risks =
      jround (max 55 (min 90 ((1 - rawRisk) * 100 + 15))) ∧
    55 ≤ calculateRelativeScore rank 1 rawRisk risks ∧
    calculateRelativeScore rank 1 rawRisk risks ≤ 90 := by
  have heq : calculateRelativeScore rank 1 rawRisk risks =
      jround (max 55 (min 90 ((1 - rawRisk) * 100 + 15))) := by
    rw [calculateRelativeScore, if_pos rfl]
  have h1 : ((55 : ℤ) : ℚ) ≤ max 55 (min 90 ((1 - rawRisk) * 100 + 15)) := by
    push_cast
    exact le_max_left _ _
  have h2 : max (55 : ℚ) (min 90 ((1 - rawRisk) * 100 + 15)) ≤ ((90 : ℤ) : ℚ) := by
    push_cast
    exact max_le (by norm_num) (min_le_left _ _)
  exact ⟨heq, heq ▸ (jround_bounds h1 h2).1, heq ▸ (jround_bounds h1 h2).2⟩

theorem calculateRelativeScore_band (rank n : ℕ) {rawRisk : ℚ} {risks : List ℚ}
    (hn : n ≠ 1) (hmem : rawRisk ∈ risks) {lo hi : ℤ}
    (hrange : scoreRangeFor rank n = ⟨(lo : ℚ), (hi : ℚ)⟩)
    (hlohi : (lo : ℚ) ≤ (hi : ℚ)) :
    lo ≤ calculateRelativeScore rank n rawRisk risks ∧
    calculateRelativeScore rank n rawRisk risks ≤ hi := by
  obtain ⟨hp0, hp1⟩ := positionInRangeFor_bounds hmem
  rw [calculateRelativeScore, if_neg hn, hrange]
  exact jround_bounds (by nlinarith) (by nlinarith)

theorem totalRawRisk_eq {routes : List RouteInputData} {environment : EnvironmentData} :
    ∀ x ∈ routeRisksOf routes environment, x.riskFactors.totalRawRisk = x.totalRisk := by
  intro x hx
  obtain ⟨route, _, rfl⟩ := List.mem_map.1 hx
  rfl

/-- C1 (confirmed): each result's safety score is determined by its rank per
the band rules.  For a batch of size 1 the score is
`round(clamp(55, 90, (1 - totalRawRisk) * 100 + 15))`, hence in [55, 90], and
the category is "Safest Option".  For a batch of size N > 1 the score is the
rounding of the linear interpolation within the rank's band ([75, 92] for
rank 1, [42, 57] for rank N, [58, 74] otherwise) at position
`1 - (risk - min)/spread`, or at the fixed position 0.7 when
`spread = max(allRisks) - min(allRisks) < 0.01`, so it lies in the rank's
band; the category is "Safest Option" for rank 1, "Least Safe Option" for
rank N, "Moderate Option" otherwise. -/
theorem relativeScore_band_spec (routes : List RouteInputData)
    (environment : EnvironmentData) (hne : routes ≠ [])
    (i : ℕ) (hi : i < (calculateMultipleRoutesSafety routes environment).length) :
    let r := (calculateMultipleRoutesSafety routes environment).get ⟨i, hi⟩
    let risks := allRawRisksOf routes environment
    (routes.length = 1 →
      r.safetyScore =
        jround (max 55 (min 90 ((1 - r.riskFactors.totalRawRisk) * 100 + 15))) ∧
      55 ≤ r.safetyScore ∧ r.safetyScore ≤ 90 ∧
      r.safetyCategory = .safestOption) ∧
    (2 ≤ routes.length →
      (r.safetyScore = jround ((scoreRangeFor r.rank routes.length).min +
        ((scoreRangeFor r.rank routes.length).max -
          (scoreRangeFor r.rank routes.length).min) *
        positionInRangeFor r.riskFactors.totalRawRisk risks)) ∧
      (r.rank = 1 →
        75 ≤ r.safetyScore ∧ r.safetyScore ≤ 92 ∧ r.safetyCategory = .safestOption) ∧
      (r.rank = routes.length →
        42 ≤ r.safetyScore ∧ r.safetyScore ≤ 57 ∧
        r.safetyCategory = .leastSafeOption) ∧
      (r.rank ≠ 1 → r.rank ≠ routes.length →
        58 ≤ r.safetyScore ∧ r.safetyScore ≤ 74 ∧
        r.safetyCategory = .moderateOption)) := by
  have hlen : routes.length ≠ 0 := fun h => hne (List.length_eq_zero.1 h)
  have hres : calculateMultipleRoutesSafety routes environment =
      (routeRisksOf routes environment).map
        (mkSafetyResult (sortedByRiskOf routes environment) routes.length
          (allRawRisksOf routes environment) environment) := by
    rw [calculateMultipleRoutesSafety, if_neg hlen]
  intro r risks
  have hi' : i < (routeRisksOf routes environment).length := by
    have h := hi
    rw [hres, List.length_map] at h
    exact h
  have hr : r = mkSafetyResult (sortedByRiskOf routes environment) routes.length
      (allRawRisksOf routes environment) environment
      ((routeRisksOf routes environment).get ⟨i, hi'⟩) := by
    show (calculateMultipleRoutesSafety routes environment).get ⟨i, hi⟩ = _
    simp only [hres, List.get_eq_getElem, List.getElem_map]
  have hx_mem : (routeRisksOf routes environment).get ⟨i, hi'⟩ ∈
      routeRisksOf routes environment := List.get_mem _ _ _
  have hxtot : ((routeRisksOf routes environment).get ⟨i, hi'⟩).riskFactors.totalRawRisk =
      ((routeRisksOf routes environment).get ⟨i, hi'⟩).totalRisk :=
    totalRawRisk_eq _ hx_mem
  have hx_risk : ((routeRisksOf routes environment).get ⟨i, hi'⟩).totalRisk ∈ risks :=
    List.mem_map_of_mem (fun y => y.totalRisk) hx_mem
  have hscore : r.safetyScore = calculateRelativeScore r.rank routes.length
      ((routeRisksOf routes environment).get ⟨i, hi'⟩).totalRisk risks := by
    rw [hr]; rfl
  have hcat : r.safetyCategory = getSafetyCategory r.rank routes.length := by
    rw [hr]; rfl
  have hrrisk : r.riskFactors.totalRawRisk =
      ((routeRisksOf routes environment).get ⟨i, hi'⟩).totalRisk := by
    rw [hr]; exact hxtot
  constructor
  · intro h1
    obtain ⟨heq, h55, h90⟩ := calculateRelativeScore_one r.rank
      ((routeRisksOf routes environment).get ⟨i, hi'⟩).totalRisk risks
    refine ⟨?_, ?_, ?_, ?_⟩
    · rw [hscore, h1, hrrisk, heq]
    · rw [hscore, h1]; exact h55
    · rw [hscore, h1]; exact h90
    · rw [hcat, h1]; rfl
  · intro hn2
    have hn1 : routes.length ≠ 1 := by omega
    refine ⟨?_, ?_, ?_, ?_⟩
    · rw [hscore, hrrisk, calculateRelativeScore, if_neg hn1]
    · intro hrk1
      have hrange : scoreRangeFor r.rank routes.length = ⟨((75 : ℤ) : ℚ), ((92 : ℤ) : ℚ)⟩ := by
        rw [scoreRangeFor, if_pos hrk1]
        norm_num [RELATIVE_SCORE_RANGES]
      obtain ⟨hlo, hhi⟩ := calculateRelativeScore_band r.rank routes.length hn1
        hx_risk hrange (by norm_num)
      refine ⟨?_, ?_, ?_⟩
      · rw [hscore]; exact hlo
      · rw [hscore]; exact hhi
      · rw [hcat, getSafetyCategory, if_neg hn1, if_pos hrk1]
    · intro hrkN
      have hrk1 : r.rank ≠ 1 := by omega
      have hrange : scoreRangeFor r.rank routes.length = ⟨((42 : ℤ) : ℚ), ((57 : ℤ) : ℚ)⟩ := by
        rw [scoreRangeFor, if_neg hrk1, if_pos hrkN]
        norm_num [RELATIVE_SCORE_RANGES]
      obtain ⟨hlo, hhi⟩ := calculateRelativeScore_band r.rank routes.length hn1
        hx_risk hrange (by norm_num)
      refine ⟨?_, ?_, ?_⟩
      · rw [hscore]; exact hlo
      · rw [hscore]; exact hhi
      · rw [hcat, getSafetyCategory, if_neg hn1, if_neg hrk1, if_pos hrkN]
    · intro hrk1 hrkN
      have hrange : scoreRangeFor r.rank routes.length = ⟨((58 : ℤ) : ℚ), ((74 : ℤ) : ℚ)⟩ := by
        rw [scoreRangeFor, if_neg hrk1, if_neg hrkN]
        norm_num [RELATIVE_SCORE_RANGES]
      obtain ⟨hlo, hhi⟩ := calculateRelativeScore_band r.rank routes.length hn1
        hx_risk hrange (by norm_num)
      refine ⟨?_, ?_, ?_⟩
      · rw [hscore]; exact hlo
      · rw [hscore]; exact hhi
      · rw [hcat, getSafetyCategory, if_neg hn1, if_neg hrk1, if_neg hrkN]

/-- C1 witness: `relativeScore_band_spec` applied to a single-route batch. -/
theorem relativeScore_band_spec_witness :
    55 ≤ ((calculateMultipleRoutesSafety [exRouteB] exEnv).get
      ⟨0, by decide⟩).safetyScore ∧
    ((calculateMultipleRoutesSafety [exRouteB] exEnv).get
      ⟨0, by decide⟩).safetyScore ≤ 90 ∧
    ((calculateMultipleRoutesSafety [exRouteB] exEnv).get
      ⟨0, by decide⟩).safetyCategory = .safestOption := by
  have h := (relativeScore_band_spec [exRouteB] exEnv (by decide) 0 (by decide)).1 rfl
  exact ⟨h.2.1, h.2.2.1, h.2.2.2⟩

/-! ## C2 — stable ranking of the batch -/

theorem rankIdxOf_getElem? :
    ∀ (s : List RouteRisk),
      (s.map (fun r => r.route.routeId)).Nodup →
      ∀ x ∈ s, s[rankIdxOf s x]? = some x := by
  intro s
  induction s with
  | nil => intro _ x hx; cases hx
  | cons a t ih =>
    intro hnd x hx
    have hnd2 : (t.map (fun r => r.route.routeId)).Nodup := by
      rw [List.map_cons] at hnd
      exact hnd.of_cons
    by_cases hpa : a.route.routeId = x.route.routeId
    · have hxa : x = a := by
        rcases List.mem_cons.1 hx with rfl | hxt
        · rfl
        · exfalso
          rw [List.map_cons] at hnd
          have hmem : x.route.routeId ∈ t.map (fun r => r.route.routeId) :=
            List.mem_map_of_mem _ hxt
          rw [← hpa] at hmem
          exact (List.nodup_cons.1 hnd).1 hmem
      subst hxa
      rw [rankIdxOf, List.findIdx_cons]
      simp
    · have hxt : x ∈ t := by
        rcases List.mem_cons.1 hx with rfl | hxt
        · exact absurd rfl hpa
        · exact hxt
      rw [rankIdxOf, List.findIdx_cons]
      have hpa2 : (decide (a.route.routeId = x.route.routeId)) = false := by
        simp [hpa]
      rw [hpa2]
      simp only [cond_false, List.getElem?_cons_succ]
      exact ih hnd2 x hxt

theorem rankIdxOf_lt {s : List RouteRisk}
    (hnd : (s.map (fun r => r.route.routeId)).Nodup) {x : RouteRisk} (hx : x ∈ s) :
    rankIdxOf s x < s.length :=
  (List.getElem?_eq_some_iff.1 (rankIdxOf_getElem? s hnd x hx)).1

theorem rankIdxOf_get {s : List RouteRisk}
    (hnd : (s.map (fun r => r.route.routeId)).Nodup) {x : RouteRisk} (hx : x ∈ s) :
    s.get ⟨rankIdxOf s x, rankIdxOf_lt hnd hx⟩ = x := by
  obtain ⟨hlt, hget⟩ := List.getElem?_eq_some_iff.1 (rankIdxOf_getElem? s hnd x hx)
  rw [List.get_eq_getElem]
  exact hget

theorem rankIdxOf_of_get {s : List RouteRisk}
    (hnd : (s.map (fun r => r.route.routeId)).Nodup) {p : ℕ} (hp : p < s.length) :
    rankIdxOf s (s.get ⟨p, hp⟩) = p := by
  have hmem : s.get ⟨p, hp⟩ ∈ s := List.get_mem _ _ _
  have hs_nodup : s.Nodup := List.Nodup.of_map _ hnd
  have hget := rankIdxOf_get hnd hmem
  have heq : (⟨rankIdxOf s (s.get ⟨p, hp⟩), rankIdxOf_lt hnd hmem⟩ : Fin s.length) =
      ⟨p, hp⟩ := hs_nodup.get_inj_iff.1 hget
  exact congrArg Fin.val heq

theorem rankIdxOf_inj {s : List RouteRisk}
    (hnd : (s.map (fun r => r.route.routeId)).Nodup) {x y : RouteRisk}
    (hx : x ∈ s) (hy : y ∈ s) (h : rankIdxOf s x = rankIdxOf s y) : x = y := by
  have h1 := rankIdxOf_getElem? s hnd x hx
  have h2 := rankIdxOf_getElem? s hnd y hy
  rw [h] at h1
  rw [h1] at h2
  exact Option.some.inj h2

theorem routeRisks_ids (routes : List RouteInputData) (environment : EnvironmentData) :
    (routeRisksOf routes environment).map (fun r => r.route.routeId) =
      routes.map (fun route => route.routeId) := by
  rw [routeRisksOf, List.map_map]
  rfl

theorem sortedByRisk_perm (routes : List RouteInputData) (environment : EnvironmentData) :
    List.Perm (sortedByRiskOf routes environment) (routeRisksOf routes environment) :=
  List.perm_insertionSort _ _

theorem routeRisks_ids_nodup {routes : List RouteInputData}
    (environment : EnvironmentData)
    (hids : (routes.map (fun route => route.routeId)).Nodup) :
    ((routeRisksOf routes environment).map (fun r => r.route.routeId)).Nodup := by
  rw [routeRisks_ids]
  exact hids

theorem sortedByRisk_ids_nodup {routes : List RouteInputData}
    (environment : EnvironmentData)
    (hids : (routes.map (fun route => route.routeId)).Nodup) :
    ((sortedByRiskOf routes environment).map (fun r => r.route.routeId)).Nodup :=
  ((sortedByRisk_perm routes environment).map _).nodup_iff.2
    (routeRisks_ids_nodup environment hids)

theorem sortedByRisk_sorted (routes : List RouteInputData)
    (environment : EnvironmentData) :
    (sortedByRiskOf routes environment).Pairwise riskLE :=
  List.sorted_insertionSort _ _

/-- Stability: a pair of risk-ordered entries appearing in input order ends up
in the same relative order in the sorted array. -/
theorem rankIdx_lt_of_pair {routes : List RouteInputData}
    {environment : EnvironmentData}
    (hids : (routes.map (fun route => route.routeId)).Nodup) {x y : RouteRisk}
    (hxy : riskLE x y)
    (hsub : List.Sublist [x, y] (routeRisksOf routes environment)) :
    rankIdxOf (sortedByRiskOf routes environment) x <
      rankIdxOf (sortedByRiskOf routes environment) y := by
  have hnd := sortedByRisk_ids_nodup environment hids
  have hsub_s : List.Sublist [x, y] (sortedByRiskOf routes environment) :=
    List.pair_sublist_insertionSort hxy hsub
  obtain ⟨is, his_eq, his_pair⟩ := List.sublist_eq_map_getElem hsub_s
  rcases is with _ | ⟨a, rest⟩
  · simp at his_eq
  rcases rest with _ | ⟨b, rest2⟩
  · simp at his_eq
  rcases rest2 with _ | ⟨c, rest3⟩
  · simp only [List.map_cons, List.map_nil] at his_eq
    have hx_eq : x = (sortedByRiskOf routes environment).get a := by
      injection his_eq with h1 _
    have hy_eq : y = (sortedByRiskOf routes environment).get b := by
      injection his_eq with _ hrest
      injection hrest with h2 _
    have hab : a < b := (List.pairwise_cons.1 his_pair).1 b (List.mem_cons_self _ _)
    have hpx : rankIdxOf (sortedByRiskOf routes environment) x = a.val := by
      rw [hx_eq]
      have := rankIdxOf_of_get hnd a.isLt
      simpa using this
    have hpy : rankIdxOf (sortedByRiskOf routes environment) y = b.val := by
      rw [hy_eq]
      have := rankIdxOf_of_get hnd b.isLt
      simpa using this
    rw [hpx, hpy]
    exact hab
  · exfalso
    simp only [List.map_cons] at his_eq
    have : ([x, y] : List RouteRisk).length = (c :: rest3).length + 2 := by
      rw [his_eq]
      simp
    simp at this

/-- Sortedness: positions in the sorted array are ordered by risk. -/
theorem riskLE_of_rankIdx_lt {routes : List RouteInputData}
    {environment : EnvironmentData}
    (hids : (routes.map (fun route => route.routeId)).Nodup) {x y : RouteRisk}
    (hx : x ∈ sortedByRiskOf routes environment)
    (hy : y ∈ sortedByRiskOf routes environment)
    (hlt : rankIdxOf (sortedByRiskOf routes environment) x <
      rankIdxOf (sortedByRiskOf routes environment) y) :
    x.totalRisk ≤ y.totalRisk := by
  have hnd := sortedByRisk_ids_nodup environment hids
  have hsorted := sortedByRisk_sorted routes environment
  have hpx := rankIdxOf_lt hnd hx
  have hpy := rankIdxOf_lt hnd hy
  have hrel := List.pairwise_iff_getElem.1 hsorted _ _ hpx hpy hlt
  have hgx := rankIdxOf_get hnd hx
  have hgy := rankIdxOf_get hnd hy
  rw [List.get_eq_getElem] at hgx hgy
  rw [hgx, hgy] at hrel
  exact hrel

/-- The characterization of the stable ranking: position in the sorted array
is ordered by (risk, original index). -/
theorem rankIdx_order_iff {routes : List RouteInputData}
    {environment : EnvironmentData}
    (hids : (routes.map (fun route => route.routeId)).Nodup)
    (i j : ℕ) (hi : i < (routeRisksOf routes environment).length)
    (hj : j < (routeRisksOf routes environment).length) :
    (rankIdxOf (sortedByRiskOf routes environment)
        ((routeRisksOf routes environment).get ⟨i, hi⟩) <
      rankIdxOf (sortedByRiskOf routes environment)
        ((routeRisksOf routes environment).get ⟨j, hj⟩)) ↔
    (((routeRisksOf routes environment).get ⟨i, hi⟩).totalRisk <
        ((routeRisksOf routes environment).get ⟨j, hj⟩).totalRisk ∨
      (((routeRisksOf routes environment).get ⟨i, hi⟩).totalRisk =
        ((routeRisksOf routes environment).get ⟨j, hj⟩).totalRisk ∧ i < j)) := by
  have hLnodup : (routeRisksOf routes environment).Nodup :=
    List.Nodup.of_map _ (routeRisks_ids_nodup environment hids)
  have hxm : (routeRisksOf routes environment).get ⟨i, hi⟩ ∈
      sortedByRiskOf routes environment :=
    (sortedByRisk_perm routes environment).mem_iff.2 (List.get_mem _ _ _)
  have hym : (routeRisksOf routes environment).get ⟨j, hj⟩ ∈
      sortedByRiskOf routes environment :=
    (sortedByRisk_perm routes environment).mem_iff.2 (List.get_mem _ _ _)
  have hpair : ∀ (p q : ℕ) (hp : p < (routeRisksOf routes environment).length)
      (hq : q < (routeRisksOf routes environment).length), p < q →
      riskLE ((routeRisksOf routes environment).get ⟨p, hp⟩)
        ((routeRisksOf routes environment).get ⟨q, hq⟩) →
      rankIdxOf (sortedByRiskOf routes environment)
          ((routeRisksOf routes environment).get ⟨p, hp⟩) <
        rankIdxOf (sortedByRiskOf routes environment)
          ((routeRisksOf routes environment).get ⟨q, hq⟩) := by
    intro p q hp hq hpq hle
    apply rankIdx_lt_of_pair hids hle
    have hps : List.Pairwise (fun a b : Fin (routeRisksOf routes environment).length =>
        a.val < b.val) [⟨p, hp⟩, ⟨q, hq⟩] := by
      simp [List.pairwise_cons]
      exact hpq
    have hsub := List.map_getElem_sublist hps
    simpa using hsub
  constructor
  · intro hlt
    have hle := riskLE_of_rankIdx_lt hids hxm hym hlt
    rcases lt_or_eq_of_le hle with h | h
    · exact Or.inl h
    · refine Or.inr ⟨h, ?_⟩
      rcases lt_trichotomy i j with hij | hij | hij
      · exact hij
      · exfalso
        subst hij
        exact lt_irrefl _ hlt
      · exfalso
        have hgt := hpair j i hj hi hij (le_of_eq h.symm)
        omega
  · rintro (hlt | ⟨heq, hij⟩)
    · rcases lt_trichotomy
        (rankIdxOf (sortedByRiskOf routes environment)
          ((routeRisksOf routes environment).get ⟨i, hi⟩))
        (rankIdxOf (sortedByRiskOf routes environment)
          ((routeRisksOf routes environment).get ⟨j, hj⟩)) with h | h | h
      · exact h
      · exfalso
        have hxy := rankIdxOf_inj (sortedByRisk_ids_nodup environment hids) hxm hym h
        rw [hxy] at hlt
        exact lt_irrefl _ hlt
      · exfalso
        have := riskLE_of_rankIdx_lt hids hym hxm h
        exact absurd hlt (not_lt.2 this)
    · exact hpair i j hi hj hij (le_of_eq heq)

/-- The assigned rank indices (0-based) of the batch form a permutation of
`range N`. -/
theorem rankIdx_map_perm_range {routes : List RouteInputData}
    (environment : EnvironmentData)
    (hids : (routes.map (fun route => route.routeId)).Nodup) :
    List.Perm
      ((routeRisksOf routes environment).map
        (fun x => rankIdxOf (sortedByRiskOf routes environment) x))
      (List.range (routeRisksOf routes environment).length) := by
  have hLnodup : (routeRisksOf routes environment).Nodup :=
    List.Nodup.of_map _ (routeRisks_ids_nodup environment hids)
  have hsnd := sortedByRisk_ids_nodup environment hids
  have hslen : (sortedByRiskOf routes environment).length =
      (routeRisksOf routes environment).length :=
    (sortedByRisk_perm routes environment).length_eq
  have hP_nodup : ((routeRisksOf routes environment).map
      (fun x => rankIdxOf (sortedByRiskOf routes environment) x)).Nodup := by
    refine List.Nodup.map_on ?_ hLnodup
    intro x hx y hy hxy
    exact rankIdxOf_inj hsnd
      ((sortedByRisk_perm routes environment).mem_iff.2 hx)
      ((sortedByRisk_perm routes environment).mem_iff.2 hy) hxy
  have hmem : ∀ k : ℕ,
      k ∈ (routeRisksOf routes environment).map
        (fun x => rankIdxOf (sortedByRiskOf routes environment) x) ↔
      k ∈ List.range (routeRisksOf routes environment).length := by
    intro k
    rw [List.mem_range]
    constructor
    · intro hk
      obtain ⟨x, hxL, rfl⟩ := List.mem_map.1 hk
      have := rankIdxOf_lt hsnd
        ((sortedByRisk_perm routes environment).mem_iff.2 hxL)
      omega
    · intro hk
      have hk2 : k < (sortedByRiskOf routes environment).length := by omega
      refine List.mem_map.2 ⟨(sortedByRiskOf routes environment).get ⟨k, hk2⟩, ?_, ?_⟩
      · exact (sortedByRisk_perm routes environment).mem_iff.1 (List.get_mem _ _ _)
      · exact rankIdxOf_of_get hsnd hk2
  exact List.perm_of_nodup_nodup_toFinset_eq hP_nodup (List.nodup_range _)
    (List.toFinset.ext hmem)

/-- C2 (confirmed): with unique route ids, `calculateMultipleRoutesSafety`
returns one result per route in input order (empty input yields the empty
list and the function is total, hence never throws); the rank fields are a
permutation of `1..N`; rank order is exactly the stable order — ascending
`totalRawRisk` with ties broken by input position — and in particular the
rank-1 route's `totalRawRisk` is a minimum of the batch. -/
theorem multipleRoutes_rank_spec (routes : List RouteInputData)
    (environment : EnvironmentData)
    (hids : (routes.map (fun route => route.routeId)).Nodup) :
    let results := calculateMultipleRoutesSafety routes environment
    results.length = routes.length ∧
    (routes = [] → results = []) ∧
    results.map (fun r => r.routeId) = routes.map (fun route => route.routeId) ∧
    List.Perm (results.map (fun r => r.rank)) (List.range' 1 routes.length) ∧
    (∀ (i j : ℕ) (hi : i < results.length) (hj : j < results.length),
      ((results.get ⟨i, hi⟩).rank < (results.get ⟨j, hj⟩).rank ↔
        ((results.get ⟨i, hi⟩).riskFactors.totalRawRisk <
            (results.get ⟨j, hj⟩).riskFactors.totalRawRisk ∨
          ((results.get ⟨i, hi⟩).riskFactors.totalRawRisk =
            (results.get ⟨j, hj⟩).riskFactors.totalRawRisk ∧ i < j)))) ∧
    (∀ (i j : ℕ) (hi : i < results.length) (hj : j < results.length),
      (results.get ⟨i, hi⟩).rank = 1 →
        (results.get ⟨i, hi⟩).riskFactors.totalRawRisk ≤
          (results.get ⟨j, hj⟩).riskFactors.totalRawRisk) := by
  intro results
  by_cases hroutes : routes = []
  · have hresnil : results = [] := by
      show calculateMultipleRoutesSafety routes environment = []
      subst hroutes
      rfl
    refine ⟨?_, fun _ => hresnil, ?_, ?_, ?_, ?_⟩
    · rw [hresnil, hroutes]
      rfl
    · rw [hresnil, hroutes]
      rfl
    · rw [hresnil, hroutes]
      exact List.Perm.refl _
    · intro i j hi hj
      rw [hresnil] at hi
      exact absurd hi (Nat.not_lt_zero i)
    · intro i j hi hj
      rw [hresnil] at hi
      exact absurd hi (Nat.not_lt_zero i)
  · have hlen0 : routes.length ≠ 0 := fun h => hroutes (List.length_eq_zero.1 h)
    have hres : calculateMultipleRoutesSafety routes environment =
        (routeRisksOf routes environment).map
          (mkSafetyResult (sortedByRiskOf routes environment) routes.length
            (allRawRisksOf routes environment) environment) := by
      rw [calculateMultipleRoutesSafety, if_neg hlen0]
    have hLlen : (routeRisksOf routes environment).length = routes.length :=
      List.length_map _ _
    have hreslen : results.length = routes.length := by
      show (calculateMultipleRoutesSafety routes environment).length = _
      rw [hres, List.length_map, hLlen]
    have hLnodup : (routeRisksOf routes environment).Nodup :=
      List.Nodup.of_map _ (routeRisks_ids_nodup environment hids)
    have hi_of : ∀ i : ℕ, i < results.length →
        i < (routeRisksOf routes environment).length := by
      intro i hi
      rw [hreslen] at hi
      omega
    have hget : ∀ (i : ℕ) (hiR : i < results.length),
        results.get ⟨i, hiR⟩ =
          mkSafetyResult (sortedByRiskOf routes environment) routes.length
            (allRawRisksOf routes environment) environment
            ((routeRisksOf routes environment).get ⟨i, hi_of i hiR⟩) := by
      intro i hiR
      show (calculateMultipleRoutesSafety routes environment).get ⟨i, hiR⟩ = _
      simp only [hres, List.get_eq_getElem, List.getElem_map]
    have hrank : ∀ (i : ℕ) (hiR : i < results.length),
        (results.get ⟨i, hiR⟩).rank =
          rankIdxOf (sortedByRiskOf routes environment)
            ((routeRisksOf routes environment).get ⟨i, hi_of i hiR⟩) + 1 := by
      intro i hiR
      rw [hget i hiR]
      rfl
    have hrisk : ∀ (i : ℕ) (hiR : i < results.length),
        (results.get ⟨i, hiR⟩).riskFactors.totalRawRisk =
          ((routeRisksOf routes environment).get ⟨i, hi_of i hiR⟩).totalRisk := by
      intro i hiR
      rw [hget i hiR]
      exact totalRawRisk_eq _ (List.get_mem _ _ _)
    have hiff : ∀ (i j : ℕ) (hi : i < results.length) (hj : j < results.length),
        ((results.get ⟨i, hi⟩).rank < (results.get ⟨j, hj⟩).rank ↔
          ((results.get ⟨i, hi⟩).riskFactors.totalRawRisk <
              (results.get ⟨j, hj⟩).riskFactors.totalRawRisk ∨
            ((results.get ⟨i, hi⟩).riskFactors.totalRawRisk =
              (results.get ⟨j, hj⟩).riskFactors.totalRawRisk ∧ i < j))) := by
      intro i j hi hj
      rw [hrank i hi, hrank j hj, hrisk i hi, hrisk j hj,
        Nat.add_lt_add_iff_right]
      exact rankIdx_order_iff hids i j (hi_of i hi) (hi_of j hj)
    refine ⟨hreslen, fun h => absurd h hroutes, ?_, ?_, hiff, ?_⟩
    · show (calculateMultipleRoutesSafety routes environment).map _ = _
      rw [hres, List.map_map, routeRisksOf, List.map_map]
      rfl
    · show List.Perm ((calculateMultipleRoutesSafety routes environment).map _) _
      rw [hres, List.map_map]
      have hcomp : ((fun r : SafetyResult => r.rank) ∘
          mkSafetyResult (sortedByRiskOf routes environment) routes.length
            (allRawRisksOf routes environment) environment) =
          fun x => rankIdxOf (sortedByRiskOf routes environment) x + 1 := rfl
      rw [hcomp]
      have hPperm := (rankIdx_map_perm_range environment hids).map (fun k => k + 1)
      have hsplit : List.map (fun x => rankIdxOf (sortedByRiskOf routes environment) x + 1)
          (routeRisksOf routes environment) =
          ((routeRisksOf routes environment).map
            (fun x => rankIdxOf (sortedByRiskOf routes environment) x)).map
            (fun k => k + 1) := by
        rw [List.map_map]
        rfl
      have hrange : (List.range (routeRisksOf routes environment).length).map
          (fun k => k + 1) = List.range' 1 routes.length := by
        rw [List.range'_eq_map_range, hLlen]
        exact List.map_congr_left (fun a _ => Nat.add_comm a 1)
      rw [hsplit, ← hrange]
      exact hPperm
    · intro i j hi hj h1
      by_cases hij : i = j
      · subst hij
        exact le_refl _
      · have hne_rank : (results.get ⟨i, hi⟩).rank ≠ (results.get ⟨j, hj⟩).rank := by
          intro habs
          rw [hrank i hi, hrank j hj] at habs
          have hidx : rankIdxOf (sortedByRiskOf routes environment)
              ((routeRisksOf routes environment).get ⟨i, hi_of i hi⟩) =
              rankIdxOf (sortedByRiskOf routes environment)
              ((routeRisksOf routes environment).get ⟨j, hi_of j hj⟩) := by omega
          have hxy := rankIdxOf_inj (sortedByRisk_ids_nodup environment hids)
            ((sortedByRisk_perm routes environment).mem_iff.2 (List.get_mem _ _ _))
            ((sortedByRisk_perm routes environment).mem_iff.2 (List.get_mem _ _ _)) hidx
          have := hLnodup.get_inj_iff.1 hxy
          exact hij (congrArg Fin.val this)
        have hlt : (results.get ⟨i, hi⟩).rank < (results.get ⟨j, hj⟩).rank := by
          have h1' : 1 ≤ (results.get ⟨j, hj⟩).rank := by
            rw [hrank j hj]
            omega
          omega
        rcases (hiff i j hi hj).1 hlt with h | ⟨h, _⟩
        · exact le_of_lt h
        · exact le_of_eq h

/-- C2 witness: `multipleRoutes_rank_spec` applied to a concrete three-route
batch with distinct ids. -/
theorem multipleRoutes_rank_spec_witness :
    (calculateMultipleRoutesSafety [exRouteA, exRouteB, exRouteC] exEnv).length = 3 ∧
    List.Perm
      ((calculateMultipleRoutesSafety [exRouteA, exRouteB, exRouteC] exEnv).map
        (fun r => r.rank))
      (List.range' 1 3) := by
  have h := multipleRoutes_rank_spec [exRouteA, exRouteB, exRouteC] exEnv (by decide)
  exact ⟨h.1, h.2.2.2.1⟩
